import Mathlib

/-!
# golog: the leveled logger of `logger/logger.go`

A shallow embedding of the package `logger` and the properties of its
specification.  Go strings are Lean strings (the text handled here is taken
to be ASCII, so bytes and characters coincide), Go `int` values are integers
(the sums of `getFrame` wrap at 64 bits, and `strconv.Atoi` keeps to the range of
`int`), and the effects of the package (sink writes, clock reads, panics and process
exit) are made explicit: every operation maps a `State` to a new `State` and
an `Outcome`.
-/

namespace logger

/-! ## Constants and the level table (logger.go, lines 14-51) -/

def Trace : Int := 0
def Debug : Int := 1
def Info : Int := 2
def Warn : Int := 3
def Error : Int := 4
def Fatal : Int := 5

def TRACE : String := "TRACE"
def DEBUG : String := "DEBUG"
def INFO : String := "INFO"
def WARN : String := "WARN"
def ERROR : String := "ERROR"
def FATAL : String := "FATAL"

/-- The package variable `TimeFromat`, which the package never assigns. -/
def TimeFromat : String := "02.01.2006 15:04:05.000"

/-- The package variable `m` with the content `init` gives it; nothing assigns it
afterwards. -/
def m : List (String × Int) :=
  [(TRACE, Trace), (DEBUG, Debug), (INFO, Info), (WARN, Warn), (ERROR, Error), (FATAL, Fatal)]

/-- Go map indexing `mp[k]`: the stored value, or the zero value when `k` is absent. -/
def mapIndex (mp : List (String × Int)) (k : String) : Int :=
  (mp.lookup k).getD 0

/-! ## Library functions used by the package -/

/-- The error kinds of `strconv` (`strconv.ErrSyntax`, `strconv.ErrRange`). -/
inductive ErrKind
  | invalidSyntax
  | outOfRange
  deriving DecidableEq, Repr

/-- A `*strconv.NumError`. -/
structure NumError where
  Func : String
  Num : String
  Err : ErrKind
  deriving DecidableEq, Repr

/-- Values carried by a panic of this package. -/
inductive PanicValue
  /-- The error `fmt.Errorf("log write error: %w", err)`, wrapping the sink's error. -/
  | writeError (err : String)
  /-- The text `fmt.Sprintf("cannot get goroutine id: %v", err)`, for the error of `Atoi`. -/
  | goidError (err : NumError)
  /-- The run-time error of `strings.Fields(...)[0]` on an empty slice. -/
  | indexOutOfRange
  /-- The run-time error of calling `Write` through a nil `io.Writer`. -/
  | nilWriter
  /-- The run-time error of `make` with a length out of range. -/
  | makeLen
  deriving DecidableEq, Repr

/-- How a call ends: it returns, it panics, or `os.Exit` ends the process. -/
inductive Outcome (α : Type)
  | returned (a : α)
  | panicked (v : PanicValue)
  | exited (code : Int)
  deriving DecidableEq, Repr

/-- The white space of `unicode.IsSpace`. -/
def isSpace (c : Char) : Bool :=
  let n := c.toNat
  (9 ≤ n && n ≤ 13) || n == 32 || n == 0x85 || n == 0xA0 || n == 0x1680 ||
  (0x2000 ≤ n && n ≤ 0x200A) || n == 0x2028 || n == 0x2029 || n == 0x202F ||
  n == 0x205F || n == 0x3000

/-- The scan of `strings.Fields`: `cur` is the field being read, in reverse. -/
def fieldsGo : List Char → Option (List Char) → List (List Char)
  | [], none => []
  | [], some cur => [cur.reverse]
  | c :: cs, cur =>
    if isSpace c then
      match cur with
      | none => fieldsGo cs none
      | some w => w.reverse :: fieldsGo cs none
    else
      fieldsGo cs (some (c :: cur.getD []))

/-- The function `strings.Fields`: the maximal runs of non-space characters. -/
def Fields (s : List Char) : List (List Char) :=
  fieldsGo s none

/-- The function `strings.TrimPrefix`. -/
def TrimPrefix (s p : List Char) : List Char :=
  if p.isPrefixOf s then s.drop p.length else s

/-- The value of a decimal digit. -/
def digitVal (c : Char) : Option Nat :=
  if 48 ≤ c.toNat ∧ c.toNat ≤ 57 then some (c.toNat - 48) else none

/-- The digit loop of `strconv.ParseUint` for base 10 and 64 bits, from the value
`n` read so far: a character that is no digit is a syntax error, and the loop stops
with a range error as soon as the value leaves `uint64`, before it looks at the
characters that follow. -/
def parseUint : List Char → Nat → Except ErrKind Nat
  | [], n => .ok n
  | c :: cs, n =>
    match digitVal c with
    | none => .error .invalidSyntax
    | some d =>
      if n ≥ (2 ^ 64 - 1) / 10 + 1 then .error .outOfRange
      else if n * 10 + d > 2 ^ 64 - 1 then .error .outOfRange
      else parseUint cs (n * 10 + d)

/-- The sign and the digits of the argument of `strconv.ParseInt`. -/
def splitSign : List Char → Bool × List Char
  | '+' :: r => (false, r)
  | '-' :: r => (true, r)
  | s => (false, s)

/-- The function `strconv.Atoi` for a 64-bit `int` (its short path for fewer than
19 characters agrees with `ParseInt(s, 10, 0)`, which is what is written here): an
optional sign, then one or more decimal digits, with a value between `-2^63` and
`2^63 - 1`.  The error names the function and the whole argument. -/
def Atoi (s : List Char) : Except NumError Int :=
  let (neg, body) := splitSign s
  if body = [] then
    .error ⟨"Atoi", String.mk s, .invalidSyntax⟩
  else
    match parseUint body 0 with
    | .error kind => .error ⟨"Atoi", String.mk s, kind⟩
    | .ok un =>
      if neg then
        if un ≤ 2 ^ 63 then .ok (-(un : Int)) else .error ⟨"Atoi", String.mk s, .outOfRange⟩
      else
        if un < 2 ^ 63 then .ok (un : Int) else .error ⟨"Atoi", String.mk s, .outOfRange⟩

/-- The text of an integer under the verb `%d`. -/
def fmtInt (i : Int) : String :=
  if i < 0 then "-" ++ Nat.repr i.natAbs else Nat.repr i.natAbs

/-- An operand of `fmt.Sprintf`. -/
inductive Arg
  | str (s : String)
  | int (i : Int)
  deriving DecidableEq, Repr

/-- One operand printed under one verb.  The verbs modelled are `s`, `d` and `v`:
the format of this package has no other.  A verb that does not fit the operand
is rendered the way `fmt` reports a bad verb, and so is any other verb. -/
def printArg (verb : Char) (a : Arg) : List Char :=
  match a with
  | .str s =>
    if verb = 's' ∨ verb = 'v' then s.data
    else '%' :: '!' :: verb :: ("(string=".data ++ s.data ++ [')'])
  | .int i =>
    if verb = 'd' ∨ verb = 'v' then (fmtInt i).data
    else '%' :: '!' :: verb :: ("(int=".data ++ (fmtInt i).data ++ [')'])

/-- The operands left over when the format is used up. -/
def extraArgs : List Arg → List Char
  | [] => []
  | [.str s] => "string=".data ++ s.data
  | [.int i] => "int=".data ++ (fmtInt i).data
  | .str s :: rest => "string=".data ++ s.data ++ ", ".data ++ extraArgs rest
  | .int i :: rest => "int=".data ++ (fmtInt i).data ++ ", ".data ++ extraArgs rest

/-- The scan of the format by `fmt.Sprintf` (no flags, width or precision). -/
def doPrintf : List Char → List Arg → List Char
  | [], [] => []
  | [], a :: args => "%!(EXTRA ".data ++ extraArgs (a :: args) ++ [')']
  | ['%'], _ => "%!(NOVERB)".data
  | '%' :: '%' :: rest, args => '%' :: doPrintf rest args
  | '%' :: verb :: rest, [] => '%' :: '!' :: verb :: ("(MISSING)".data ++ doPrintf rest [])
  | '%' :: verb :: rest, a :: args => printArg verb a ++ doPrintf rest args
  | c :: rest, args => c :: doPrintf rest args

/-- The function `fmt.Sprintf`. -/
def Sprintf (format : String) (args : List Arg) : String :=
  String.mk (doPrintf format.data args)

/-! ## The environment and the state -/

/-- A `runtime.Frame`, with the fields the package reads and the file name. -/
structure Frame where
  Function : String
  File : String
  Line : Int
  deriving DecidableEq, Repr

/-- The zero value `runtime.Frame{}`. -/
def zeroFrame : Frame := ⟨"", "", 0⟩

/-- A `time.Time`, as nanoseconds since the epoch. -/
abbrev Time := Int

/-- An `io.Writer` as the logger sees it: the bytes it has accepted, the number
of `Write` calls it has received, and its behaviour `fail`, which from the bytes
held and the bytes offered answers the error of the call, if any.  A rejected
write stores nothing. -/
structure Writer where
  data : String
  calls : Nat
  fail : String → String → Option String

/-- The method `Write` of a writer: the writer after the call and the error returned. -/
def Writer.Write (w : Writer) (p : String) : Writer × Option String :=
  match w.fail w.data p with
  | none => ({ w with data := w.data ++ p, calls := w.calls + 1 }, none)
  | some e => ({ w with calls := w.calls + 1 }, some e)

/-- The struct `Logger`.  An entry of `outputs` is a reference to a writer of the
program (its index in `State.writers`); `once` is true when `sync.Once` has run. -/
structure Logger where
  outputs : List Nat
  logLevel : Int
  timeFormat : String
  once : Bool
  deriving DecidableEq, Repr

/-- What a call reads from its surroundings: the values of successive calls of
`time.Now`, the function `Time.Format`, the text `runtime.Stack` gives for the
calling goroutine, and the call stack of the code that calls the logger
(innermost frame first). -/
structure Env where
  clock : Nat → Time
  format : Time → String → String
  dump : String
  callers : List Frame

/-- The state: the logger, the writers of the program, and the number of clock
reads made so far. -/
structure State where
  l : Logger
  writers : List Writer
  ticks : Nat

/-! ## The package (logger.go, lines 53-155) -/

/-- The loop of `getFrame` over `runtime.Frames`.  `frames.Next()` gives the first
remaining frame and `more`, which tells whether frames remain after it; on an
exhausted iterator it gives the zero frame and `false`. -/
def frameLoop (targetFrameIndex : Int) : List Frame → Bool → Int → Frame → Frame
  | [], more, frameIndex, frame =>
    if more && frameIndex ≤ targetFrameIndex then
      if frameIndex = targetFrameIndex then zeroFrame else frame
    else frame
  | frameCandidate :: rest, more, frameIndex, frame =>
    if more && frameIndex ≤ targetFrameIndex then
      frameLoop targetFrameIndex rest (!rest.isEmpty) (frameIndex + 1)
        (if frameIndex = targetFrameIndex then frameCandidate else frame)
    else frame

/-- The value of a 64-bit Go `int` that holds the integer `i`: sums wrap around. -/
def wrapInt (i : Int) : Int :=
  (i + 9223372036854775808) % 18446744073709551616 - 9223372036854775808

/-- The constant `maxAlloc` of the Go runtime on a 64-bit platform with 48 address
bits: `2^48` bytes. -/
def maxAlloc : Int := 281474976710656

/-- The check of `make([]uintptr, n)`: the length is not negative and its `8*n`
bytes do not exceed `maxAlloc`; otherwise `make` panics with `len out of range`.
An allocation that passes the check is taken to succeed. -/
def makeAccepts (n : Int) : Bool :=
  decide (0 ≤ n) && decide (8 * n ≤ maxAlloc)

/-- The function `getFrame`.  `stack` is the call stack at the call of
`runtime.Callers(0, ...)`: index 0 is `runtime.Callers`, index 1 is `getFrame`.
The sums `skipFrames + 2` and `targetFrameIndex+2` are sums of 64-bit `int`s, and
`make` panics when the length they give is out of range.  `runtime.Callers`
fills at most `targetFrameIndex+2` entries.  In the loop `frameIndex` stays at
most `targetFrameIndex + 1`, within the range of `int`. -/
def getFrame (stack : List Frame) (skipFrames : Int) : Outcome Frame :=
  let targetFrameIndex := wrapInt (skipFrames + 2)
  if makeAccepts (wrapInt (targetFrameIndex + 2)) then
    let n := min stack.length (wrapInt (targetFrameIndex + 2)).toNat
    let frame : Frame := ⟨"unknown", "", 0⟩
    if n > 0 then
      .returned (frameLoop targetFrameIndex (stack.take n) true 0 frame)
    else .returned frame
  else .panicked .makeLen

/-- The parsing step of `goid` (lines 126-131) on the text `d` of `buf[:n]`. -/
def goidParse (d : String) : Outcome Int :=
  match Fields (TrimPrefix d.data "goroutine ".data) with
  | [] => .panicked .indexOutOfRange
  | idField :: _ =>
    match Atoi idField with
    | .error err => .panicked (.goidError err)
    | .ok id => .returned id

/-- The function `goid`: `runtime.Stack` copies the first 64 bytes of the dump
into `buf`. -/
def goid (dump : String) : Outcome Int :=
  goidParse (String.mk (dump.data.take 64))

/-- The method `Logger.getTimeNow`: one clock read, formatted. -/
def Logger.getTimeNow (env : Env) (s : State) : State × String :=
  ({ s with ticks := s.ticks + 1 }, env.format (env.clock s.ticks) s.l.timeFormat)

/-- The method `Logger.getLog`.  The operands are evaluated left to right: the
clock is read before `goid` is called. -/
def Logger.getLog (env : Env) (s : State) (logLevel text : String) (frame : Frame) :
    State × Outcome String :=
  let (s1, now) := Logger.getTimeNow env s
  match goid env.dump with
  | .returned id =>
    (s1, .returned (Sprintf "%s %s [%s.%d goid-%d] %s\n"
      [.str now, .str logLevel, .str frame.Function, .int frame.Line, .int id, .str text]))
  | .panicked v => (s1, .panicked v)
  | .exited c => (s1, .exited c)

/-- The loop of `Logger.write` over `l.outputs`. -/
def writeLoop (env : Env) (logLevel text : String) (frame : Frame) :
    List Nat → State → State × Outcome Unit
  | [], s => (s, .returned ())
  | output :: rest, s =>
    match Logger.getLog env s logLevel text frame with
    | (s1, .returned log) =>
      match s1.writers[output]? with
      | none => (s1, .panicked .nilWriter)
      | some w =>
        let s2 : State := { s1 with writers := s1.writers.set output (w.Write log).1 }
        match (w.Write log).2 with
        | some err => (s2, .panicked (.writeError err))
        | none => writeLoop env logLevel text frame rest s2
    | (s1, .panicked v) => (s1, .panicked v)
    | (s1, .exited c) => (s1, .exited c)

/-- The method `Logger.write`. -/
def Logger.write (env : Env) (s : State) (logLevel text : String) (frame : Frame) :
    State × Outcome Unit :=
  if s.l.logLevel > mapIndex m logLevel then (s, .returned ())
  else writeLoop env logLevel text frame s.l.outputs s

/-- The method `Logger.SetTimeFormat`. -/
def Logger.SetTimeFormat (s : State) (format : String) : State :=
  { s with l := { s.l with timeFormat := format } }

/-- The method `Logger.SetLevel`. -/
def Logger.SetLevel (s : State) (level : Int) : State :=
  { s with l := { s.l with logLevel := level } }

/-- The method `Logger.SetOutput`: `once.Do` runs the assignment on the first call only. -/
def Logger.SetOutput (s : State) (outputs : List Nat) : State :=
  if s.l.once then s
  else { s with l := { s.l with outputs := outputs, once := true } }

/-- The function `NewLogger`, in a program with the given writers and clock reads. -/
def NewLogger (writers : List Writer) (ticks : Nat) : State :=
  let log : State := ⟨⟨[], 0, "", false⟩, writers, ticks⟩
  Logger.SetTimeFormat (Logger.SetLevel log Trace) TimeFromat

/-- The frames of the package on the stack when a level method calls
`getFrame(1)`: `runtime.Callers`, `getFrame`, and the method, at its line. -/
def internalFrames (method : String) (line : Int) : List Frame :=
  [⟨"runtime.Callers", "runtime/extern.go", 0⟩,
   ⟨"logger.getFrame", "logger/logger.go", 140⟩,
   ⟨"logger.(*Logger)." ++ method, "logger/logger.go", line⟩]

/-- The shared body of the level methods: `l.write(LEVEL, text, getFrame(1))`. -/
def emit (env : Env) (s : State) (method : String) (line : Int) (logLevel text : String) :
    State × Outcome Unit :=
  match getFrame (internalFrames method line ++ env.callers) 1 with
  | .returned frame => Logger.write env s logLevel text frame
  | .panicked v => (s, .panicked v)
  | .exited c => (s, .exited c)

/-- The method `Logger.Trace`. -/
def Logger.Trace (env : Env) (s : State) (text : String) : State × Outcome Unit :=
  emit env s "Trace" 76 TRACE text

/-- The method `Logger.Debug`. -/
def Logger.Debug (env : Env) (s : State) (text : String) : State × Outcome Unit :=
  emit env s "Debug" 80 DEBUG text

/-- The method `Logger.Info`. -/
def Logger.Info (env : Env) (s : State) (text : String) : State × Outcome Unit :=
  emit env s "Info" 84 INFO text

/-- The method `Logger.Warn`. -/
def Logger.Warn (env : Env) (s : State) (text : String) : State × Outcome Unit :=
  emit env s "Warn" 88 WARN text

/-- The method `Logger.Error`. -/
def Logger.Error (env : Env) (s : State) (text : String) : State × Outcome Unit :=
  emit env s "Error" 92 ERROR text

/-- The method `Logger.Fatal`: `os.Exit(1)` runs when `write` has returned. -/
def Logger.Fatal (env : Env) (s : State) (text : String) : State × Outcome Unit :=
  match emit env s "Fatal" 96 FATAL text with
  | (s1, .returned _) => (s1, .exited 1)
  | (s1, .panicked v) => (s1, .panicked v)
  | (s1, .exited c) => (s1, .exited c)

/-! ## Notions used to state the properties -/

/-- The first white-space-delimited field of `d` once a leading `"goroutine "` is
removed, if there is one. -/
def firstField (d : String) : Option (List Char) :=
  (Fields (TrimPrefix d.data "goroutine ".data)).head?

/-- A decimal integer: an optional sign followed by one or more decimal digits. -/
def isDecimalInteger (f : List Char) : Bool :=
  !(splitSign f).2.isEmpty && (splitSign f).2.all (fun c => (digitVal c).isSome)

/-- The line of the output format, for the clock read number `tick` and the
goroutine identifier `id`:
`<time> <LEVEL> [<function>.<line> goid-<id>] <text>` and a newline. -/
def logLine (env : Env) (timeFormat logLevel text : String) (frame : Frame) (id : Int)
    (tick : Nat) : String :=
  env.format (env.clock tick) timeFormat ++ " " ++ logLevel ++ " [" ++ frame.Function ++ "." ++
    fmtInt frame.Line ++ " goid-" ++ fmtInt id ++ "] " ++ text ++ "\n"

/-- A writer after it has accepted the bytes `p`. -/
def Writer.accepted (w : Writer) (p : String) : Writer :=
  { w with data := w.data ++ p, calls := w.calls + 1 }

/-- A writer after it has rejected a write. -/
def Writer.rejected (w : Writer) : Writer :=
  { w with calls := w.calls + 1 }

/-- The caller's frame as `getFrame(1)` finds it from a level method: the innermost
frame of the calling code, or the sentinel when there is none. -/
def callSite (env : Env) : Frame :=
  env.callers.headD ⟨"unknown", "", 0⟩

/-! ## Example inputs -/

/-- An in-memory buffer: it accepts every write. -/
def memoryBuffer : Writer := ⟨"", 0, fun _ _ => none⟩

/-- A sink that rejects every write. -/
def closedPipe : Writer := ⟨"", 0, fun _ _ => some "broken pipe"⟩

/-- The rendering of the instants of `exampleEnv`: under the default layout the
instant `0` is 10:15:30.123 on 2 January 2024 and the later ones are one
millisecond after it; under the layout `15:04:05` they are `10:15:30`. -/
def exampleFormat (t : Time) (layout : String) : String :=
  if layout = TimeFromat then
    if t = 0 then "02.01.2024 10:15:30.123" else "02.01.2024 10:15:30.124"
  else if layout = "15:04:05" then "10:15:30"
  else layout

/-- Goroutine 7 running `main.run`, called from `main.main`; the clock advances
between two reads. -/
def exampleEnv : Env :=
  ⟨fun k => (k : Int), exampleFormat, "goroutine 7 [running]:\nmain.run()\n\t/app/main.go:42\n",
    [⟨"main.run", "/app/main.go", 42⟩, ⟨"main.main", "/app/main.go", 10⟩]⟩

/-- A program with two buffers and a closed pipe, and a new logger writing to the
two buffers. -/
def exampleState : State :=
  Logger.SetOutput (NewLogger [memoryBuffer, memoryBuffer, closedPipe] 0) [0, 1]

/-- The same program, the logger writing to a buffer, the closed pipe, and the
other buffer, in this order. -/
def failingState : State :=
  Logger.SetOutput (NewLogger [memoryBuffer, memoryBuffer, closedPipe] 0) [0, 2, 1]

/-- The stack `runtime.Callers` sees when `exampleEnv` calls `Logger.Info`. -/
def exampleStack : List Frame :=
  internalFrames "Info" 84 ++ exampleEnv.callers

/-- The logger of `exampleState` with its threshold set to `Warn`. -/
def warnState : State :=
  Logger.SetLevel exampleState Warn

/-- The frame of the call site in the examples. -/
def exampleFrame : Frame := ⟨"main.run", "/app/main.go", 42⟩

/-! ## Lemmas on the library functions -/

theorem digitVal_digitChar (d : Nat) (h : d < 10) : digitVal (Nat.digitChar d) = some d := by
  interval_cases d <;> decide

theorem isSpace_digitChar (d : Nat) (h : d < 10) : isSpace (Nat.digitChar d) = false := by
  interval_cases d <;> decide

theorem toDigitsCore_append (fuel : Nat) : ∀ (n : Nat) (ds : List Char),
    Nat.toDigitsCore 10 fuel n ds = Nat.toDigitsCore 10 fuel n [] ++ ds := by
  induction fuel with
  | zero => intro n ds; simp [Nat.toDigitsCore]
  | succ fuel ih =>
    intro n ds
    simp only [Nat.toDigitsCore]
    split
    · simp
    · rw [ih (n / 10) (_ :: ds), ih (n / 10) [_]]
      simp

theorem parseUint_append (xs ys : List Char) : ∀ acc : Nat,
    parseUint (xs ++ ys) acc =
      match parseUint xs acc with
      | .ok v => parseUint ys v
      | .error kind => .error kind := by
  induction xs with
  | nil => intro acc; simp [parseUint]
  | cons c cs ih =>
    intro acc
    simp only [List.cons_append, parseUint]
    cases digitVal c with
    | none => rfl
    | some d =>
      simp only
      split
      · rfl
      · split
        · rfl
        · exact ih _

theorem parseUint_single (d acc : Nat) (hd : d < 10) :
    parseUint [Nat.digitChar d] acc =
      if acc * 10 + d < 2 ^ 64 then .ok (acc * 10 + d) else .error .outOfRange := by
  simp only [parseUint, digitVal_digitChar d hd]
  by_cases h1 : acc ≥ (2 ^ 64 - 1) / 10 + 1
  · have h2 : ¬ acc * 10 + d < 2 ^ 64 := by
      have : (2 ^ 64 - 1) / 10 + 1 = 1844674407370955162 := by norm_num
      rw [this] at h1
      have : (2 : Nat) ^ 64 = 18446744073709551616 := by norm_num
      omega
    rw [if_pos h1, if_neg h2]
  · rw [if_neg h1]
    by_cases h3 : acc * 10 + d > 2 ^ 64 - 1
    · have h2 : ¬ acc * 10 + d < 2 ^ 64 := by omega
      rw [if_pos h3, if_neg h2]
    · have h2 : acc * 10 + d < 2 ^ 64 := by
        have : (2 : Nat) ^ 64 = 18446744073709551616 := by norm_num
        omega
      rw [if_neg h3, if_pos h2]

theorem parseUint_toDigitsCore (fuel : Nat) : ∀ n : Nat, n < fuel →
    parseUint (Nat.toDigitsCore 10 fuel n []) 0 =
      if n < 2 ^ 64 then .ok n else .error .outOfRange := by
  induction fuel with
  | zero => intro n h; omega
  | succ fuel ih =>
    intro n h
    have hd : n % 10 < 10 := Nat.mod_lt _ (by decide)
    simp only [Nat.toDigitsCore]
    split
    · rename_i h0
      rw [parseUint_single _ _ hd]
      have : 0 * 10 + n % 10 = n := by omega
      rw [this]
    · rename_i h0
      rw [toDigitsCore_append, parseUint_append, ih (n / 10) (by omega)]
      by_cases hq : n / 10 < 2 ^ 64
      · rw [if_pos hq]
        simp only
        rw [parseUint_single _ _ hd]
        have : n / 10 * 10 + n % 10 = n := by omega
        rw [this]
      · rw [if_neg hq]
        have : ¬ n < 2 ^ 64 := by
          have : (2 : Nat) ^ 64 = 18446744073709551616 := by norm_num
          omega
        rw [if_neg this]

theorem parseUint_repr (n : Nat) :
    parseUint (Nat.repr n).data 0 = if n < 2 ^ 64 then .ok n else .error .outOfRange := by
  simp only [Nat.repr, Nat.toDigits, List.asString]
  exact parseUint_toDigitsCore (n + 1) n (by omega)

theorem parseUint_ok_all : ∀ (cs : List Char) (acc u : Nat),
    parseUint cs acc = .ok u → cs.all (fun c => (digitVal c).isSome) = true := by
  intro cs
  induction cs with
  | nil => intro acc u _; rfl
  | cons c cs ih =>
    intro acc u h
    simp only [parseUint] at h
    cases hd : digitVal c with
    | none => simp [hd] at h
    | some d =>
      simp only [hd] at h
      split at h
      · cases h
      · split at h
        · cases h
        · simp [hd, ih _ _ h]

theorem toDigitsCore_digits (fuel : Nat) : ∀ (n : Nat) (ds : List Char),
    (∀ c ∈ ds, (digitVal c).isSome) →
    ∀ c ∈ Nat.toDigitsCore 10 fuel n ds, (digitVal c).isSome := by
  induction fuel with
  | zero => intro n ds h; simpa [Nat.toDigitsCore] using h
  | succ fuel ih =>
    intro n ds h
    simp only [Nat.toDigitsCore]
    have hd : ∀ c ∈ Nat.digitChar (n % 10) :: ds, (digitVal c).isSome := by
      intro c hc
      rcases List.mem_cons.mp hc with rfl | hc
      · rw [digitVal_digitChar _ (Nat.mod_lt _ (by decide))]; rfl
      · exact h c hc
    split
    · exact hd
    · exact ih _ _ hd

theorem isSpace_of_digit (c : Char) (h : (digitVal c).isSome) : isSpace c = false := by
  have hr : 48 ≤ c.toNat ∧ c.toNat ≤ 57 := by
    by_contra hn
    simp [digitVal, hn] at h
  have h1 : ¬ c.toNat ≤ 13 := by omega
  have h2 : c.toNat ≠ 32 := by omega
  have h3 : c.toNat ≠ 0x85 := by omega
  have h4 : c.toNat ≠ 0xA0 := by omega
  have h5 : c.toNat ≠ 0x1680 := by omega
  have h6 : ¬ 0x2000 ≤ c.toNat := by omega
  have h7 : c.toNat ≠ 0x2028 := by omega
  have h8 : c.toNat ≠ 0x2029 := by omega
  have h9 : c.toNat ≠ 0x202F := by omega
  have h10 : c.toNat ≠ 0x205F := by omega
  have h11 : c.toNat ≠ 0x3000 := by omega
  simp [isSpace, h1, h2, h3, h4, h5, h6, h7, h8, h9, h10, h11]

theorem toDigitsCore_ne_nil (fuel : Nat) : ∀ (n : Nat) (ds : List Char),
    Nat.toDigitsCore 10 (fuel + 1) n ds ≠ [] := by
  induction fuel with
  | zero => intro n ds; simp [Nat.toDigitsCore]
  | succ fuel ih =>
    intro n ds
    rw [Nat.toDigitsCore]
    split
    · simp
    · exact ih _ _

theorem repr_digits (n : Nat) : ∀ c ∈ (Nat.repr n).data, (digitVal c).isSome := by
  simp only [Nat.repr, Nat.toDigits, List.asString]
  exact toDigitsCore_digits (n + 1) n [] (by simp)

theorem repr_noSpace (n : Nat) : ∀ c ∈ (Nat.repr n).data, isSpace c = false :=
  fun c hc => isSpace_of_digit c (repr_digits n c hc)

theorem repr_ne_nil (n : Nat) : (Nat.repr n).data ≠ [] := by
  simp only [Nat.repr, Nat.toDigits, List.asString]
  exact toDigitsCore_ne_nil n n []

theorem fieldsGo_run (sp : Char) (rest : List Char) (hsp : isSpace sp = true) :
    ∀ (xs cur : List Char), (∀ c ∈ xs, isSpace c = false) →
      fieldsGo (xs ++ sp :: rest) (some cur) = (cur.reverse ++ xs) :: fieldsGo rest none := by
  intro xs
  induction xs with
  | nil => intro cur _; simp [fieldsGo, hsp]
  | cons c cs ih =>
    intro cur h
    have hc : isSpace c = false := h c (List.mem_cons_self _ _)
    have hcs : ∀ x ∈ cs, isSpace x = false := fun x hx => h x (List.mem_cons_of_mem _ hx)
    simp only [List.cons_append, fieldsGo, hc]
    simp [ih (c :: cur) hcs]

theorem Fields_run (sp : Char) (xs rest : List Char) (hsp : isSpace sp = true)
    (hne : xs ≠ []) (h : ∀ c ∈ xs, isSpace c = false) :
    Fields (xs ++ sp :: rest) = xs :: Fields rest := by
  cases xs with
  | nil => exact absurd rfl hne
  | cons c cs =>
    have hc : isSpace c = false := h c (List.mem_cons_self _ _)
    have hcs : ∀ x ∈ cs, isSpace x = false := fun x hx => h x (List.mem_cons_of_mem _ hx)
    simp only [Fields, List.cons_append, fieldsGo, hc]
    simp [fieldsGo_run sp rest hsp cs [c] hcs, Fields]

theorem TrimPrefix_append (p xs : List Char) : TrimPrefix (p ++ xs) p = xs := by
  simp [TrimPrefix, List.isPrefixOf_iff_prefix]

theorem splitSign_of_digit (c : Char) (cs : List Char) (h : (digitVal c).isSome) :
    splitSign (c :: cs) = (false, c :: cs) := by
  have h1 : c ≠ '+' := by rintro rfl; simp [digitVal] at h
  have h2 : c ≠ '-' := by rintro rfl; simp [digitVal] at h
  unfold splitSign
  split
  · rename_i heq; simp at heq; exact absurd heq.1 h1
  · rename_i heq; simp at heq; exact absurd heq.1 h2
  · rfl

theorem repr_head_digit (n : Nat) :
    ∃ c cs, (Nat.repr n).data = c :: cs ∧ (digitVal c).isSome := by
  cases hr : (Nat.repr n).data with
  | nil => exact absurd hr (repr_ne_nil n)
  | cons c cs =>
    exact ⟨c, cs, rfl, repr_digits n c (by rw [hr]; exact List.mem_cons_self _ _)⟩

theorem Atoi_repr (n : Nat) :
    Atoi (Nat.repr n).data =
      if n < 2 ^ 63 then .ok (n : Int) else .error ⟨"Atoi", Nat.repr n, .outOfRange⟩ := by
  obtain ⟨c, cs, hr, hc⟩ := repr_head_digit n
  have hp := parseUint_repr n
  have hs : String.mk (c :: cs) = Nat.repr n := by rw [← hr]
  simp only [Atoi]
  rw [hr] at hp ⊢
  rw [splitSign_of_digit c cs hc]
  simp only [hp, hs]
  have h64 : (2 : Nat) ^ 64 = 18446744073709551616 := by norm_num
  have h63 : (2 : Nat) ^ 63 = 9223372036854775808 := by norm_num
  rw [h63, h64]
  by_cases h1 : n < 9223372036854775808
  · have h2 : n < 18446744073709551616 := by omega
    simp [h1, h2]
  · by_cases h2 : n < 18446744073709551616
    · simp [h1, h2]
    · simp [h1, h2]

theorem Atoi_not_decimal (f : List Char) (h : isDecimalInteger f = false) :
    ∃ kind, Atoi f = .error ⟨"Atoi", String.mk f, kind⟩ := by
  simp only [Atoi]
  by_cases hb : (splitSign f).2 = []
  · exact ⟨.invalidSyntax, by simp [hb]⟩
  · simp only [hb, if_false]
    cases hp : parseUint (splitSign f).2 0 with
    | error kind => exact ⟨kind, rfl⟩
    | ok u =>
      have hall := parseUint_ok_all _ _ _ hp
      simp [isDecimalInteger, hall, hb] at h

theorem header_data (n : Nat) (rest : String) :
    ("goroutine " ++ Nat.repr n ++ " [running]:" ++ rest).data =
      "goroutine ".data ++ ((Nat.repr n).data ++ ' ' :: ("[running]:".data ++ rest.data)) := by
  simp [String.data_append]

theorem firstField_header (n : Nat) (rest : String) :
    Fields (TrimPrefix ("goroutine " ++ Nat.repr n ++ " [running]:" ++ rest).data
      "goroutine ".data) = (Nat.repr n).data :: Fields ("[running]:".data ++ rest.data) := by
  rw [header_data, TrimPrefix_append]
  exact Fields_run ' ' _ _ (by decide) (repr_ne_nil n) (repr_noSpace n)

theorem goidParse_header (n : Nat) (rest : String) :
    goidParse ("goroutine " ++ Nat.repr n ++ " [running]:" ++ rest) =
      if n < 2 ^ 63 then .returned (n : Int)
      else .panicked (.goidError ⟨"Atoi", Nat.repr n, .outOfRange⟩) := by
  unfold goidParse
  rw [firstField_header n rest]
  show (match Atoi (Nat.repr n).data with
    | .error err => Outcome.panicked (.goidError err)
    | .ok id => Outcome.returned id) = _
  rw [Atoi_repr]
  by_cases h : n < 2 ^ 63
  · rw [if_pos h, if_pos h]
  · rw [if_neg h, if_neg h]

theorem goid_header (n : Nat) (rest : String) (h : n < 2 ^ 63) :
    goid ("goroutine " ++ Nat.repr n ++ " [running]:" ++ rest) = .returned (n : Int) := by
  have hlen : (Nat.repr n).length ≤ 19 :=
    Nat.repr_length n 19 (by decide) (lt_of_lt_of_le h (by norm_num))
  have hcap : String.mk (("goroutine " ++ Nat.repr n ++ " [running]:" ++ rest).data.take 64) =
      "goroutine " ++ Nat.repr n ++ " [running]:" ++
        String.mk (rest.data.take (64 - (21 + (Nat.repr n).length))) := by
    apply String.ext
    simp only [String.data_append, List.append_assoc]
    rw [← List.append_assoc, ← List.append_assoc, List.take_append_eq_append_take]
    have hl : ("goroutine ".data ++ (Nat.repr n).data ++ " [running]:".data).length =
        21 + (Nat.repr n).length := by
      have h1 : "goroutine ".data.length = 10 := rfl
      have h2 : " [running]:".data.length = 11 := rfl
      rw [List.length_append, List.length_append, h1, h2]
      show 10 + (Nat.repr n).data.length + 11 = 21 + (Nat.repr n).data.length
      omega
    rw [hl, List.take_of_length_le (by rw [hl]; omega)]
    simp
  unfold goid
  rw [hcap, goidParse_header, if_pos h]

/-! ## Lemmas on `getFrame` -/

theorem frameLoop_past (t : Int) (fs : List Frame) (more : Bool) (j : Int) (frame : Frame)
    (h : t < j) : frameLoop t fs more j frame = frame := by
  have hn : ¬ j ≤ t := not_le.mpr h
  cases fs <;> simp [frameLoop, hn]

theorem frameLoop_stop (t : Int) (fs : List Frame) (j : Int) (frame : Frame) :
    frameLoop t fs false j frame = frame := by
  cases fs <;> simp [frameLoop]

theorem frameLoop_index (t : Nat) : ∀ (fs : List Frame) (j : Nat) (frame : Frame),
    fs ≠ [] → j ≤ t →
    frameLoop (t : Int) fs true (j : Int) frame = (fs[t - j]?).getD frame := by
  intro fs
  induction fs with
  | nil => intro j frame h; exact absurd rfl h
  | cons f rest ih =>
    intro j frame _ hj
    have hjt : (j : Int) ≤ (t : Int) := by exact_mod_cast hj
    simp only [frameLoop, Bool.true_and, decide_eq_true_eq, hjt, if_true]
    by_cases heq : j = t
    · subst heq
      rw [frameLoop_past _ _ _ _ _ (by omega)]
      simp
    · have hlt : j < t := lt_of_le_of_ne hj heq
      have hne : ¬ ((j : Int) = (t : Int)) := by exact_mod_cast heq
      simp only [hne, if_false]
      have hidx : t - j = (t - (j + 1)) + 1 := by omega
      rw [hidx, List.getElem?_cons_succ]
      cases rest with
      | nil => simp [frameLoop_stop]
      | cons g rest' =>
        have := ih (j + 1) frame (by simp) (by omega)
        simpa using this

theorem wrapInt_small (i : Int) (h0 : -9223372036854775808 ≤ i)
    (h1 : i < 9223372036854775808) : wrapInt i = i := by
  unfold wrapInt
  omega

theorem getFrame_nat (stack : List Frame) (k : Nat) (hk : k + 4 ≤ 35184372088832) :
    getFrame stack (k : Int) = .returned ((stack[k + 2]?).getD ⟨"unknown", "", 0⟩) := by
  have hw1 : wrapInt ((k : Int) + 2) = (k : Int) + 2 := wrapInt_small _ (by omega) (by omega)
  have hw2 : wrapInt ((k : Int) + 2 + 2) = (k : Int) + 2 + 2 :=
    wrapInt_small _ (by omega) (by omega)
  have hacc : makeAccepts ((k : Int) + 2 + 2) = true := by
    simp only [makeAccepts, maxAlloc, Bool.and_eq_true, decide_eq_true_eq]
    omega
  have hn : ((k : Int) + 2 + 2).toNat = k + 4 := by omega
  simp only [getFrame, hw1, hw2, hacc, if_true, hn]
  by_cases hz : min stack.length (k + 4) > 0
  · simp only [hz, if_true]
    have hne : List.take (min stack.length (k + 4)) stack ≠ [] := by
      intro h
      have := congrArg List.length h
      rw [List.length_take, List.length_nil] at this
      omega
    have hcast : ((k : Int) + 2) = ((k + 2 : Nat) : Int) := by push_cast; rfl
    rw [hcast]
    have := frameLoop_index (k + 2) _ 0 ⟨"unknown", "", 0⟩ hne (by omega)
    simp only [Nat.cast_zero, Nat.sub_zero] at this
    rw [this]
    have hget : (List.take (min stack.length (k + 4)) stack)[k + 2]? = stack[k + 2]? := by
      rw [List.getElem?_take]
      by_cases hk2 : k + 2 < min stack.length (k + 4)
      · rw [if_pos hk2]
      · have hle : stack.length ≤ k + 2 := by omega
        rw [if_neg hk2, List.getElem?_eq_none hle]
    rw [hget]
  · have hlen : stack.length = 0 := by omega
    have : stack = [] := List.length_eq_zero.mp hlen
    subst this
    simp

theorem getFrame_large (stack : List Frame) (skipFrames : Int)
    (hlo : 35184372088832 < skipFrames + 4) (hhi : skipFrames < 9223372036854775808) :
    getFrame stack skipFrames = .panicked .makeLen := by
  have hrej : makeAccepts (wrapInt (wrapInt (skipFrames + 2) + 2)) = false := by
    simp only [makeAccepts, maxAlloc, wrapInt, Bool.and_eq_false_imp, decide_eq_true_eq,
      decide_eq_false_iff_not]
    omega
  simp only [getFrame, hrej]
  rfl

/-! ## Lemmas on `write` -/

theorem Sprintf_line (ts lv f t : String) (n g : Int) :
    Sprintf "%s %s [%s.%d goid-%d] %s\n" [.str ts, .str lv, .str f, .int n, .int g, .str t] =
      ts ++ " " ++ lv ++ " [" ++ f ++ "." ++ fmtInt n ++ " goid-" ++ fmtInt g ++ "] " ++ t ++
        "\n" := by
  apply String.ext
  simp [Sprintf, doPrintf, printArg]

theorem getLog_ok (env : Env) (s : State) (lv text : String) (fr : Frame) (g : Int)
    (hg : goid env.dump = .returned g) :
    Logger.getLog env s lv text fr =
      ({ s with ticks := s.ticks + 1 },
        .returned (logLine env s.l.timeFormat lv text fr g s.ticks)) := by
  simp only [Logger.getLog, Logger.getTimeNow, hg, Sprintf_line, logLine]

theorem getLog_fst (env : Env) (s : State) (lv text : String) (fr : Frame) :
    (Logger.getLog env s lv text fr).1 = { s with ticks := s.ticks + 1 } := by
  simp only [Logger.getLog, Logger.getTimeNow]
  cases goid env.dump <;> rfl

theorem writeLoop_cons_accept (env : Env) (lv text : String) (fr : Frame) (g : Int)
    (hg : goid env.dump = .returned g) (r : Nat) (rest : List Nat) (s : State) (w : Writer)
    (hw : s.writers[r]? = some w)
    (hacc : w.fail w.data (logLine env s.l.timeFormat lv text fr g s.ticks) = none) :
    writeLoop env lv text fr (r :: rest) s =
      writeLoop env lv text fr rest
        { s with ticks := s.ticks + 1,
                 writers := s.writers.set r
                   (w.accepted (logLine env s.l.timeFormat lv text fr g s.ticks)) } := by
  simp only [writeLoop, getLog_ok env s lv text fr g hg, hw, Writer.Write, hacc, Writer.accepted]

theorem writeLoop_cons_reject (env : Env) (lv text : String) (fr : Frame) (g : Int)
    (hg : goid env.dump = .returned g) (r : Nat) (rest : List Nat) (s : State) (w : Writer)
    (e : String) (hw : s.writers[r]? = some w)
    (hrej : w.fail w.data (logLine env s.l.timeFormat lv text fr g s.ticks) = some e) :
    writeLoop env lv text fr (r :: rest) s =
      ({ s with ticks := s.ticks + 1, writers := s.writers.set r w.rejected },
        .panicked (.writeError e)) := by
  simp only [writeLoop, getLog_ok env s lv text fr g hg, hw, Writer.Write, hrej, Writer.rejected]

theorem writeLoop_frame (env : Env) (lv text : String) (fr : Frame) :
    ∀ (outs : List Nat) (s : State),
      (writeLoop env lv text fr outs s).1.l = s.l ∧
      ∀ x, x ∉ outs → (writeLoop env lv text fr outs s).1.writers[x]? = s.writers[x]? := by
  intro outs
  induction outs with
  | nil => intro s; simp [writeLoop]
  | cons r rest ih =>
    intro s
    have h1 := getLog_fst env s lv text fr
    simp only [writeLoop]
    rcases hgl : Logger.getLog env s lv text fr with ⟨s1, o⟩
    rw [hgl] at h1
    simp only at h1
    subst h1
    cases o with
    | returned log =>
      simp only
      cases hw : s.writers[r]? with
      | none => simp
      | some w =>
        simp only
        cases he : (w.Write log).2 with
        | some err =>
          simp only
          refine ⟨by first | rfl | trivial, ?_⟩
          intro x hx
          have hxr : r ≠ x := fun h => hx (h ▸ List.mem_cons_self _ _)
          simp [List.getElem?_set_ne hxr]
        | none =>
          simp only
          obtain ⟨ihl, ihw⟩ := ih ⟨s.l, s.writers.set r (w.Write log).1, s.ticks + 1⟩
          refine ⟨ihl, ?_⟩
          intro x hx
          have hxr : r ≠ x := fun h => hx (h ▸ List.mem_cons_self _ _)
          rw [ihw x (fun h => hx (List.mem_cons_of_mem _ h))]
          simp [List.getElem?_set_ne hxr]
    | panicked v => simp
    | exited c => simp

theorem writeLoop_accept (env : Env) (lv text : String) (fr : Frame) (g : Int)
    (hg : goid env.dump = .returned g) :
    ∀ (outs : List Nat) (s : State), outs.Nodup →
      (∀ (i r : Nat), outs[i]? = some r → ∃ w : Writer, s.writers[r]? = some w ∧
        w.fail w.data (logLine env s.l.timeFormat lv text fr g (s.ticks + i)) = none) →
      (writeLoop env lv text fr outs s).2 = .returned () ∧
      (writeLoop env lv text fr outs s).1.ticks = s.ticks + outs.length ∧
      ∀ (i r : Nat) (w : Writer), outs[i]? = some r → s.writers[r]? = some w →
        (writeLoop env lv text fr outs s).1.writers[r]? =
          some (w.accepted (logLine env s.l.timeFormat lv text fr g (s.ticks + i))) := by
  intro outs
  induction outs with
  | nil => intro s _ _; simp [writeLoop]
  | cons r rest ih =>
    intro s hnd hacc
    obtain ⟨hr, hnd'⟩ := List.nodup_cons.mp hnd
    obtain ⟨w, hw, hwacc⟩ := hacc 0 r (List.getElem?_cons_zero)
    rw [writeLoop_cons_accept env lv text fr g hg r rest s w hw hwacc]
    have hother : ∀ x, x ≠ r →
        (s.writers.set r (w.accepted (logLine env s.l.timeFormat lv text fr g s.ticks)))[x]? =
          s.writers[x]? := fun x hx => List.getElem?_set_ne (Ne.symm hx)
    have hrest : ∀ (i x : Nat), rest[i]? = some x → x ≠ r := by
      intro i x hx hxr
      exact hr (hxr ▸ List.getElem?_mem hx)
    obtain ⟨ih1, ih2, ih3⟩ := ih
      ⟨s.l, s.writers.set r (w.accepted (logLine env s.l.timeFormat lv text fr g s.ticks)),
        s.ticks + 1⟩ hnd' (by
        intro i x hx
        obtain ⟨w', hw', hacc'⟩ := hacc (i + 1) x (by simpa using hx)
        refine ⟨w', ?_, ?_⟩
        · show (s.writers.set r _)[x]? = some w'
          rw [hother x (hrest i x hx)]; exact hw'
        · show w'.fail w'.data (logLine env s.l.timeFormat lv text fr g (s.ticks + 1 + i)) = none
          rw [Nat.add_assoc, Nat.add_comm 1 i]; exact hacc')
    refine ⟨ih1, ?_, ?_⟩
    · rw [ih2]; simp only [List.length_cons]; omega
    · intro i x w' hx hw'
      cases i with
      | zero =>
        simp only [List.getElem?_cons_zero, Option.some.injEq] at hx
        subst hx
        rw [hw] at hw'
        cases hw'
        rw [(writeLoop_frame env lv text fr rest _).2 r hr]
        have hlt : r < s.writers.length := by
          rcases List.getElem?_eq_some_iff.mp hw with ⟨h, _⟩; exact h
        simp [List.getElem?_set_self hlt]
      | succ j =>
        have hx' : rest[j]? = some x := by simpa using hx
        have := ih3 j x w' hx' (by
          show (s.writers.set r _)[x]? = some w'
          rw [hother x (hrest j x hx')]; exact hw')
        rw [this]
        show some (w'.accepted (logLine env s.l.timeFormat lv text fr g (s.ticks + 1 + j))) = _
        rw [Nat.add_assoc, Nat.add_comm 1 j]

theorem writeLoop_reject (env : Env) (lv text : String) (fr : Frame) (g : Int)
    (hg : goid env.dump = .returned g) :
    ∀ (outs : List Nat) (s : State) (i r : Nat) (w : Writer) (e : String), outs.Nodup →
      outs[i]? = some r → s.writers[r]? = some w →
      w.fail w.data (logLine env s.l.timeFormat lv text fr g (s.ticks + i)) = some e →
      (∀ (j x : Nat), j < i → outs[j]? = some x → ∃ u : Writer, s.writers[x]? = some u ∧
        u.fail u.data (logLine env s.l.timeFormat lv text fr g (s.ticks + j)) = none) →
      (writeLoop env lv text fr outs s).2 = .panicked (.writeError e) ∧
      (∀ (j x : Nat) (u : Writer), j < i → outs[j]? = some x → s.writers[x]? = some u →
        (writeLoop env lv text fr outs s).1.writers[x]? =
          some (u.accepted (logLine env s.l.timeFormat lv text fr g (s.ticks + j)))) ∧
      (writeLoop env lv text fr outs s).1.writers[r]? = some w.rejected ∧
      (∀ (j x : Nat), i < j → outs[j]? = some x →
        (writeLoop env lv text fr outs s).1.writers[x]? = s.writers[x]?) := by
  intro outs
  induction outs with
  | nil => intro s i r w e _ h; simp at h
  | cons r0 rest ih =>
    intro s i r w e hnd hi hw hrej hacc
    obtain ⟨hr0, hnd'⟩ := List.nodup_cons.mp hnd
    have hrest : ∀ (k x : Nat), rest[k]? = some x → x ≠ r0 := by
      intro k x hx hxr
      exact hr0 (hxr ▸ List.getElem?_mem hx)
    cases i with
    | zero =>
      simp only [List.getElem?_cons_zero, Option.some.injEq] at hi
      subst hi
      rw [writeLoop_cons_reject env lv text fr g hg r0 rest s w e hw hrej]
      have hlt : r0 < s.writers.length := by
        rcases List.getElem?_eq_some_iff.mp hw with ⟨h, _⟩; exact h
      refine ⟨rfl, ?_, ?_, ?_⟩
      · intro j x u hj; omega
      · simp [List.getElem?_set_self hlt]
      · intro j x hj hx
        cases j with
        | zero => omega
        | succ k =>
          have hx' : rest[k]? = some x := by simpa using hx
          exact List.getElem?_set_ne (Ne.symm (hrest k x hx'))
    | succ k =>
      have hi' : rest[k]? = some r := by simpa using hi
      have hrne : r ≠ r0 := hrest k r hi'
      obtain ⟨w0, hw0, hw0acc⟩ := hacc 0 r0 (by omega) List.getElem?_cons_zero
      rw [writeLoop_cons_accept env lv text fr g hg r0 rest s w0 hw0 hw0acc]
      have hother : ∀ x, x ≠ r0 →
          (s.writers.set r0 (w0.accepted (logLine env s.l.timeFormat lv text fr g s.ticks)))[x]? =
            s.writers[x]? := fun x hx => List.getElem?_set_ne (Ne.symm hx)
      have hshift : ∀ j : Nat, s.ticks + 1 + j = s.ticks + (j + 1) := fun j => by omega
      obtain ⟨ih1, ih2, ih3, ih4⟩ := ih
        ⟨s.l, s.writers.set r0 (w0.accepted (logLine env s.l.timeFormat lv text fr g s.ticks)),
          s.ticks + 1⟩ k r w e hnd' hi'
        (by show (s.writers.set r0 _)[r]? = some w
            rw [hother r hrne]; exact hw)
        (by show w.fail w.data (logLine env s.l.timeFormat lv text fr g (s.ticks + 1 + k)) = some e
            rw [hshift]; exact hrej)
        (by
          intro j x hj hx
          obtain ⟨u, hu, huacc⟩ := hacc (j + 1) x (by omega) (by simpa using hx)
          refine ⟨u, ?_, ?_⟩
          · show (s.writers.set r0 _)[x]? = some u
            rw [hother x (hrest j x hx)]; exact hu
          · show u.fail u.data (logLine env s.l.timeFormat lv text fr g (s.ticks + 1 + j)) = none
            rw [hshift]; exact huacc)
      refine ⟨ih1, ?_, ih3, ?_⟩
      · intro j x u hj hx hu
        cases j with
        | zero =>
          simp only [List.getElem?_cons_zero, Option.some.injEq] at hx
          subst hx
          rw [hw0] at hu
          cases hu
          rw [(writeLoop_frame env lv text fr rest _).2 r0 hr0]
          have hlt : r0 < s.writers.length := by
            rcases List.getElem?_eq_some_iff.mp hw0 with ⟨h, _⟩; exact h
          simp [List.getElem?_set_self hlt]
        | succ j' =>
          have hx' : rest[j']? = some x := by simpa using hx
          have := ih2 j' x u (by omega) hx' (by
            show (s.writers.set r0 _)[x]? = some u
            rw [hother x (hrest j' x hx')]; exact hu)
          rw [this]
          show some (u.accepted (logLine env s.l.timeFormat lv text fr g (s.ticks + 1 + j'))) = _
          rw [hshift]
      · intro j x hj hx
        cases j with
        | zero => omega
        | succ j' =>
          have hx' : rest[j']? = some x := by simpa using hx
          rw [ih4 j' x (by omega) hx']
          exact hother x (hrest j' x hx')

theorem writeLoop_acceptAll (env : Env) (lv text : String) (fr : Frame) (g : Int)
    (hg : goid env.dump = .returned g) :
    ∀ (outs : List Nat) (s : State),
      (∀ r ∈ outs, ∃ w : Writer, s.writers[r]? = some w ∧ ∀ d p, w.fail d p = none) →
      (writeLoop env lv text fr outs s).2 = .returned () := by
  intro outs
  induction outs with
  | nil => intro s _; rfl
  | cons r rest ih =>
    intro s h
    obtain ⟨w, hw, hwacc⟩ := h r (List.mem_cons_self _ _)
    rw [writeLoop_cons_accept env lv text fr g hg r rest s w hw (hwacc _ _)]
    apply ih
    intro x hx
    obtain ⟨u, hu, huacc⟩ := h x (List.mem_cons_of_mem _ hx)
    by_cases hxr : x = r
    · subst hxr
      have hlt : x < s.writers.length := by
        rcases List.getElem?_eq_some_iff.mp hw with ⟨h, _⟩; exact h
      refine ⟨_, List.getElem?_set_self hlt, ?_⟩
      intro d p
      exact hwacc d p
    · exact ⟨u, by
        show (s.writers.set r _)[x]? = some u
        rw [List.getElem?_set_ne (Ne.symm hxr)]; exact hu, huacc⟩

/-! ## Lemmas on the level table, the level methods and the examples -/

theorem mapIndex_m (p : String × Int) (hp : p ∈ m) : mapIndex m p.1 = p.2 := by
  simp only [m, List.mem_cons, List.mem_singleton, List.not_mem_nil, or_false] at hp
  rcases hp with rfl | rfl | rfl | rfl | rfl | rfl <;> decide

theorem fmtInt_natCast (k : Nat) : fmtInt (k : Int) = Nat.repr k := by
  simp [fmtInt]

theorem emit_eq (env : Env) (s : State) (method : String) (line : Int) (lv text : String) :
    emit env s method line lv text = Logger.write env s lv text (callSite env) := by
  have h := getFrame_nat (internalFrames method line ++ env.callers) 1 (by norm_num)
  have h3 : (internalFrames method line ++ env.callers)[1 + 2]? = env.callers[0]? := by
    simp [internalFrames]
  rw [h3] at h
  have hc : (env.callers[0]?).getD ⟨"unknown", "", 0⟩ = callSite env := by
    unfold callSite
    cases env.callers <;> simp
  rw [hc] at h
  unfold emit
  have h1 : ((1 : Nat) : Int) = 1 := rfl
  rw [h1] at h
  rw [h]

theorem accepted_ne (w : Writer) (p : String) : w.accepted p ≠ w := by
  intro h
  have := congrArg Writer.calls h
  simp [Writer.accepted] at this

theorem exampleState_accepts (T : Int) : ∀ r ∈ (Logger.SetLevel exampleState T).l.outputs,
    ∃ w : Writer, (Logger.SetLevel exampleState T).writers[r]? = some w ∧
      ∀ d p, w.fail d p = none := by
  intro r hr
  have hr' : r = 0 ∨ r = 1 := by simpa [Logger.SetLevel, exampleState, Logger.SetOutput,
    NewLogger, Logger.SetTimeFormat] using hr
  rcases hr' with rfl | rfl
  · exact ⟨memoryBuffer, rfl, fun _ _ => rfl⟩
  · exact ⟨memoryBuffer, rfl, fun _ _ => rfl⟩

theorem Fatal_eq (env : Env) (s : State) (text : String) :
    Logger.Fatal env s text =
      match Logger.write env s FATAL text (callSite env) with
      | (s1, .returned _) => (s1, .exited 1)
      | (s1, .panicked v) => (s1, .panicked v)
      | (s1, .exited c) => (s1, .exited c) := by
  unfold Logger.Fatal
  rw [emit_eq]

/-! ## The properties of the specification -/

/-- C1: for a level `L` of the table, a logger with any threshold (the ordinal of
a level `T` in particular) whose sinks are distinct writers that accept every
write, and a call of `write` with the name of `L`: each configured sink receives
the formatted line (one more accepted write, the line appended to what it holds)
exactly when the threshold is at most `ordinal(L)`; in that case the call returns,
the logger is as before and the writers that are not sinks are as before; when
`ordinal(L)` is below the threshold the call returns and the whole state is as
before. -/
theorem write_threshold (env : Env) (s : State) (L : String × Int) (text : String)
    (frame : Frame) (g : Int) (hL : L ∈ m)
    (hg : goid env.dump = .returned g) (hnd : s.l.outputs.Nodup)
    (hacc : ∀ r ∈ s.l.outputs, ∃ w : Writer, s.writers[r]? = some w ∧
      ∀ d p, w.fail d p = none) :
    (∀ (i r : Nat) (w : Writer), s.l.outputs[i]? = some r → s.writers[r]? = some w →
      ((Logger.write env s L.1 text frame).1.writers[r]? =
          some (w.accepted (logLine env s.l.timeFormat L.1 text frame g (s.ticks + i))) ↔
        s.l.logLevel ≤ L.2)) ∧
    (s.l.logLevel ≤ L.2 →
      (Logger.write env s L.1 text frame).2 = .returned () ∧
      (Logger.write env s L.1 text frame).1.l = s.l ∧
      ∀ r, r ∉ s.l.outputs → (Logger.write env s L.1 text frame).1.writers[r]? = s.writers[r]?) ∧
    (L.2 < s.l.logLevel → Logger.write env s L.1 text frame = (s, .returned ())) := by
  have hacc' : ∀ (i r : Nat), s.l.outputs[i]? = some r → ∃ w : Writer, s.writers[r]? = some w ∧
      w.fail w.data (logLine env s.l.timeFormat L.1 text frame g (s.ticks + i)) = none := by
    intro i r hi
    obtain ⟨w, hw, hwa⟩ := hacc r (List.getElem?_mem hi)
    exact ⟨w, hw, hwa _ _⟩
  have hlow : L.2 < s.l.logLevel → Logger.write env s L.1 text frame = (s, .returned ()) := by
    intro hlt
    have : s.l.logLevel > mapIndex m L.1 := by rw [mapIndex_m L hL]; exact hlt
    simp [Logger.write, this]
  have hhigh : s.l.logLevel ≤ L.2 →
      Logger.write env s L.1 text frame = writeLoop env L.1 text frame s.l.outputs s := by
    intro hle
    have : ¬ s.l.logLevel > mapIndex m L.1 := by
      rw [mapIndex_m L hL]; exact not_lt.mpr hle
    simp [Logger.write, this]
  refine ⟨?_, ?_, hlow⟩
  · intro i r w hi hw
    constructor
    · intro hres
      by_contra hnot
      rw [hlow (not_le.mp hnot)] at hres
      rw [hw] at hres
      exact accepted_ne w _ (Option.some.inj hres).symm
    · intro hle
      rw [hhigh hle]
      exact (writeLoop_accept env L.1 text frame g hg s.l.outputs s hnd hacc').2.2 i r w hi hw
  · intro hle
    rw [hhigh hle]
    exact ⟨(writeLoop_accept env L.1 text frame g hg s.l.outputs s hnd hacc').1,
      (writeLoop_frame env L.1 text frame s.l.outputs s).1,
      (writeLoop_frame env L.1 text frame s.l.outputs s).2⟩

/-- C1, witness: with the threshold at `Warn`, calls at `TRACE`, `DEBUG` and `INFO`
leave the state as it was, and calls at `WARN`, `ERROR` and `FATAL` put their line
in the first buffer. -/
theorem write_threshold_witness :
    Logger.write exampleEnv warnState TRACE "t" exampleFrame = (warnState, .returned ()) ∧
    Logger.write exampleEnv warnState DEBUG "d" exampleFrame = (warnState, .returned ()) ∧
    Logger.write exampleEnv warnState INFO "i" exampleFrame = (warnState, .returned ()) ∧
    ((Logger.write exampleEnv warnState WARN "w" exampleFrame).1.writers[0]?).map Writer.data =
      some "02.01.2024 10:15:30.123 WARN [main.run.42 goid-7] w\n" ∧
    ((Logger.write exampleEnv warnState ERROR "e" exampleFrame).1.writers[0]?).map Writer.data =
      some "02.01.2024 10:15:30.123 ERROR [main.run.42 goid-7] e\n" ∧
    ((Logger.write exampleEnv warnState FATAL "f" exampleFrame).1.writers[0]?).map Writer.data =
      some "02.01.2024 10:15:30.123 FATAL [main.run.42 goid-7] f\n" :=
  ⟨(write_threshold exampleEnv warnState (TRACE, Trace) "t" exampleFrame 7 (by decide)
      (by decide) (by decide) (exampleState_accepts Warn)).2.2 (by decide),
   (write_threshold exampleEnv warnState (DEBUG, Debug) "d" exampleFrame 7 (by decide)
      (by decide) (by decide) (exampleState_accepts Warn)).2.2 (by decide),
   (write_threshold exampleEnv warnState (INFO, Info) "i" exampleFrame 7 (by decide)
      (by decide) (by decide) (exampleState_accepts Warn)).2.2 (by decide),
   (congrArg (Option.map Writer.data)
      (((write_threshold exampleEnv warnState (WARN, Warn) "w" exampleFrame 7 (by decide)
        (by decide) (by decide) (exampleState_accepts Warn)).1 0 0 memoryBuffer rfl rfl).mpr
          (by decide))).trans (by decide),
   (congrArg (Option.map Writer.data)
      (((write_threshold exampleEnv warnState (ERROR, Error) "e" exampleFrame 7 (by decide)
        (by decide) (by decide) (exampleState_accepts Warn)).1 0 0 memoryBuffer rfl rfl).mpr
          (by decide))).trans (by decide),
   (congrArg (Option.map Writer.data)
      (((write_threshold exampleEnv warnState (FATAL, Fatal) "f" exampleFrame 7 (by decide)
        (by decide) (by decide) (exampleState_accepts Warn)).1 0 0 memoryBuffer rfl rfl).mpr
          (by decide))).trans (by decide)⟩

/-- C2: after any sequence of `SetOutput` calls on a logger whose guard has not
run, the sink list is the argument of the first call, be it empty; the state
after the whole sequence is the state after the first call, and a further call
changes nothing; a later `write` leaves every writer outside the first list as
it was. -/
theorem SetOutput_first_wins (s : State) (first : List Nat) (later : List (List Nat))
    (h : s.l.once = false) :
    ((first :: later).foldl Logger.SetOutput s).l.outputs = first ∧
    (first :: later).foldl Logger.SetOutput s = Logger.SetOutput s first ∧
    (∀ outs : List Nat,
      Logger.SetOutput ((first :: later).foldl Logger.SetOutput s) outs =
        (first :: later).foldl Logger.SetOutput s) ∧
    (∀ (env : Env) (lv text : String) (fr : Frame) (r : Nat), r ∉ first →
      (Logger.write env ((first :: later).foldl Logger.SetOutput s) lv text fr).1.writers[r]? =
        s.writers[r]?) := by
  have hdone : ∀ (t : State), t.l.once = true → ∀ outs, Logger.SetOutput t outs = t := by
    intro t ht outs
    simp [Logger.SetOutput, ht]
  have hfold : ∀ (ls : List (List Nat)) (t : State), t.l.once = true →
      ls.foldl Logger.SetOutput t = t := by
    intro ls
    induction ls with
    | nil => intro t _; rfl
    | cons a ls ih => intro t ht; rw [List.foldl_cons, hdone t ht a]; exact ih t ht
  have h1 : (Logger.SetOutput s first).l.once = true := by simp [Logger.SetOutput, h]
  have hall : (first :: later).foldl Logger.SetOutput s = Logger.SetOutput s first := by
    rw [List.foldl_cons]; exact hfold later _ h1
  have hout : (Logger.SetOutput s first).l.outputs = first := by simp [Logger.SetOutput, h]
  have hwr : (Logger.SetOutput s first).writers = s.writers := by simp [Logger.SetOutput, h]
  refine ⟨by rw [hall]; exact hout, hall, ?_, ?_⟩
  · intro outs
    rw [hall]
    exact hdone _ h1 outs
  · intro env lv text fr r hr
    rw [hall]
    unfold Logger.write
    split
    · rw [hwr]
    · rw [(writeLoop_frame env lv text fr _ _).2 r (by rw [hout]; exact hr), hwr]

/-- C2, witness: three calls of `SetOutput` on a new logger keep the list of the
first call, also when that list is empty. -/
theorem SetOutput_first_wins_witness :
    (NewLogger [memoryBuffer, memoryBuffer, closedPipe] 0).l.once = false ∧
    ([[0, 1], [2], []].foldl Logger.SetOutput
      (NewLogger [memoryBuffer, memoryBuffer, closedPipe] 0)).l.outputs = [0, 1] ∧
    ([[], [2], [0, 1]].foldl Logger.SetOutput
      (NewLogger [memoryBuffer, memoryBuffer, closedPipe] 0)).l.outputs = [] :=
  ⟨by decide,
   (SetOutput_first_wins (NewLogger [memoryBuffer, memoryBuffer, closedPipe] 0) [0, 1]
     [[2], []] (by decide)).1,
   (SetOutput_first_wins (NewLogger [memoryBuffer, memoryBuffer, closedPipe] 0) []
     [[2], [0, 1]] (by decide)).1⟩

/-- C3: the line built by `getLog` is the timestamp, a space, the level name,
` [`, the function name, `.`, the line number in decimal, ` goid-`, the goroutine
identifier in decimal, `] `, the text as given, and one newline. -/
theorem getLog_format (env : Env) (s : State) (ts LEVEL f file t : String) (n g : Nat)
    (hts : (Logger.getTimeNow env s).2 = ts) (hg : goid env.dump = .returned (g : Int)) :
    (Logger.getLog env s LEVEL t ⟨f, file, (n : Int)⟩).2 =
      .returned (ts ++ " " ++ LEVEL ++ " [" ++ f ++ "." ++ Nat.repr n ++ " goid-" ++
        Nat.repr g ++ "] " ++ t ++ "\n") := by
  rw [getLog_ok env s LEVEL t _ (g : Int) hg]
  simp only [logLine, fmtInt_natCast]
  rw [← hts]
  rfl

/-- C3, witness: the example line of the specification. -/
theorem getLog_format_witness :
    goid exampleEnv.dump = .returned ((7 : Nat) : Int) ∧
    (Logger.getLog exampleEnv exampleState INFO "server started"
        ⟨"main.run", "/app/main.go", ((42 : Nat) : Int)⟩).2 =
      .returned "02.01.2024 10:15:30.123 INFO [main.run.42 goid-7] server started\n" :=
  ⟨by decide,
   (getLog_format exampleEnv exampleState "02.01.2024 10:15:30.123" INFO "main.run"
      "/app/main.go" "server started" 42 7 (by decide) (by decide)).trans (by decide)⟩

/-- C4, evaluation at the failing input: `Info("ready")` on a logger with two
buffers, the clock advancing by a millisecond between its two reads.  The two
buffers do not receive the same line: the timestamps differ.  A second call,
`Warn("again")`, appends its line after the first one in each buffer. -/
theorem Info_two_sinks_lines :
    (Logger.Info exampleEnv exampleState "ready").2 = .returned () ∧
    ((Logger.Info exampleEnv exampleState "ready").1.writers.map Writer.data) =
      ["02.01.2024 10:15:30.123 INFO [main.run.42 goid-7] ready\n",
       "02.01.2024 10:15:30.124 INFO [main.run.42 goid-7] ready\n", ""] ∧
    ((Logger.Info exampleEnv exampleState "ready").1.writers[0]?).map Writer.data ≠
      ((Logger.Info exampleEnv exampleState "ready").1.writers[1]?).map Writer.data ∧
    ((Logger.Warn exampleEnv (Logger.Info exampleEnv exampleState "ready").1 "again").1.writers.map
        Writer.data) =
      ["02.01.2024 10:15:30.123 INFO [main.run.42 goid-7] ready\n" ++
         "02.01.2024 10:15:30.124 WARN [main.run.42 goid-7] again\n",
       "02.01.2024 10:15:30.124 INFO [main.run.42 goid-7] ready\n" ++
         "02.01.2024 10:15:30.124 WARN [main.run.42 goid-7] again\n", ""] := by
  refine ⟨by decide, by decide, by decide, by decide⟩

/-- C5: for a call that the threshold lets through, on a logger whose sinks are
distinct writers: when the write to the sink at position `i` is the first to be
rejected, `write` panics with the error of that sink, every sink before `i` has
received its line, the sink at `i` has seen one call and stored nothing, and no
sink after `i` has been touched; when every sink accepts its line, `write`
returns. -/
theorem write_first_failure (env : Env) (s : State) (logLevel text : String) (frame : Frame)
    (g : Int) (hgate : ¬ s.l.logLevel > mapIndex m logLevel)
    (hg : goid env.dump = .returned g) (hnd : s.l.outputs.Nodup) :
    (∀ (i r : Nat) (w : Writer) (e : String),
      s.l.outputs[i]? = some r → s.writers[r]? = some w →
      w.fail w.data (logLine env s.l.timeFormat logLevel text frame g (s.ticks + i)) = some e →
      (∀ (j x : Nat), j < i → s.l.outputs[j]? = some x → ∃ u : Writer, s.writers[x]? = some u ∧
        u.fail u.data (logLine env s.l.timeFormat logLevel text frame g (s.ticks + j)) = none) →
      (Logger.write env s logLevel text frame).2 = .panicked (.writeError e) ∧
      (∀ (j x : Nat) (u : Writer), j < i → s.l.outputs[j]? = some x → s.writers[x]? = some u →
        (Logger.write env s logLevel text frame).1.writers[x]? =
          some (u.accepted (logLine env s.l.timeFormat logLevel text frame g (s.ticks + j)))) ∧
      (Logger.write env s logLevel text frame).1.writers[r]? = some w.rejected ∧
      (∀ (j x : Nat), i < j → s.l.outputs[j]? = some x →
        (Logger.write env s logLevel text frame).1.writers[x]? = s.writers[x]?)) ∧
    ((∀ (i r : Nat), s.l.outputs[i]? = some r → ∃ w : Writer, s.writers[r]? = some w ∧
        w.fail w.data (logLine env s.l.timeFormat logLevel text frame g (s.ticks + i)) = none) →
      (Logger.write env s logLevel text frame).2 = .returned ()) := by
  have hw : Logger.write env s logLevel text frame =
      writeLoop env logLevel text frame s.l.outputs s := by
    simp [Logger.write, hgate]
  rw [hw]
  refine ⟨?_, ?_⟩
  · intro i r w e hi hwr hrej hbefore
    exact writeLoop_reject env logLevel text frame g hg s.l.outputs s i r w e hnd hi hwr hrej
      hbefore
  · intro hall
    exact (writeLoop_accept env logLevel text frame g hg s.l.outputs s hnd hall).1

/-- C5, witness: with the closed pipe second in the list, `write` panics with its
error, the first buffer holds the line and the last one has received no call;
with the two buffers only, `write` returns. -/
theorem write_first_failure_witness :
    (Logger.write exampleEnv failingState ERROR "e" exampleFrame).2 =
      .panicked (.writeError "broken pipe") ∧
    ((Logger.write exampleEnv failingState ERROR "e" exampleFrame).1.writers[0]?).map
      Writer.data = some "02.01.2024 10:15:30.123 ERROR [main.run.42 goid-7] e\n" ∧
    ((Logger.write exampleEnv failingState ERROR "e" exampleFrame).1.writers[1]?).map
      Writer.calls = some 0 ∧
    (Logger.write exampleEnv exampleState ERROR "e" exampleFrame).2 = .returned () :=
  ⟨((write_first_failure exampleEnv failingState ERROR "e" exampleFrame 7 (by decide)
      (by decide) (by decide)).1 1 2 closedPipe "broken pipe" rfl rfl rfl
      (fun j x hj hx => by
        have hj0 : j = 0 := by omega
        subst hj0
        cases hx
        exact ⟨memoryBuffer, rfl, rfl⟩)).1,
   (congrArg (Option.map Writer.data)
     (((write_first_failure exampleEnv failingState ERROR "e" exampleFrame 7 (by decide)
      (by decide) (by decide)).1 1 2 closedPipe "broken pipe" rfl rfl rfl
      (fun j x hj hx => by
        have hj0 : j = 0 := by omega
        subst hj0
        cases hx
        exact ⟨memoryBuffer, rfl, rfl⟩)).2.1 0 0 memoryBuffer (by decide) rfl rfl)).trans
          (by decide),
   (congrArg (Option.map Writer.calls)
     (((write_first_failure exampleEnv failingState ERROR "e" exampleFrame 7 (by decide)
      (by decide) (by decide)).1 1 2 closedPipe "broken pipe" rfl rfl rfl
      (fun j x hj hx => by
        have hj0 : j = 0 := by omega
        subst hj0
        cases hx
        exact ⟨memoryBuffer, rfl, rfl⟩)).2.2.2 2 1 (by decide) rfl)).trans (by decide),
   (write_first_failure exampleEnv exampleState ERROR "e" exampleFrame 7 (by decide)
      (by decide) (by decide)).2 (fun i r hi => by
        obtain ⟨w, hw, hwa⟩ := exampleState_accepts Trace r (List.getElem?_mem hi)
        exact ⟨w, hw, hwa _ _⟩)⟩

/-- C6, as amended: `Fatal` never returns to its caller.  When `write` returns,
the process exits with status 1 right after it: so it is when the threshold
suppresses the line (nothing is written) and when every sink accepts the line.
When `write` panics, as it does when a sink rejects the line, `Fatal` ends in
that panic, with the state `write` left, and `os.Exit` is not reached. -/
theorem Fatal_outcome (env : Env) (s : State) (text : String) :
    (∀ u : Unit, (Logger.Fatal env s text).2 ≠ .returned u) ∧
    ((Logger.write env s FATAL text (callSite env)).2 = .returned () →
      Logger.Fatal env s text = ((Logger.write env s FATAL text (callSite env)).1, .exited 1)) ∧
    (s.l.logLevel > Fatal → Logger.Fatal env s text = (s, .exited 1)) ∧
    (∀ g : Int, goid env.dump = .returned g →
      (∀ r ∈ s.l.outputs, ∃ w : Writer, s.writers[r]? = some w ∧ ∀ d p, w.fail d p = none) →
      (Logger.Fatal env s text).2 = .exited 1) ∧
    (∀ v : PanicValue, (Logger.write env s FATAL text (callSite env)).2 = .panicked v →
      Logger.Fatal env s text =
        ((Logger.write env s FATAL text (callSite env)).1, .panicked v)) := by
  have hret : (Logger.write env s FATAL text (callSite env)).2 = .returned () →
      Logger.Fatal env s text =
        ((Logger.write env s FATAL text (callSite env)).1, .exited 1) := by
    intro h
    rw [Fatal_eq]
    rcases hw : Logger.write env s FATAL text (callSite env) with ⟨s1, o⟩
    rw [hw] at h
    simp only at h
    subst h
    rfl
  have hF : mapIndex m FATAL = Fatal := by decide
  refine ⟨?_, hret, ?_, ?_, ?_⟩
  · intro u
    rw [Fatal_eq]
    rcases Logger.write env s FATAL text (callSite env) with ⟨s1, o⟩
    cases o <;> simp
  · intro hgt
    have hw : Logger.write env s FATAL text (callSite env) = (s, .returned ()) := by
      have : s.l.logLevel > mapIndex m FATAL := by rw [hF]; exact hgt
      simp [Logger.write, this]
    rw [hret (by rw [hw]), hw]
  · intro g hg hacc
    have hw : (Logger.write env s FATAL text (callSite env)).2 = .returned () := by
      unfold Logger.write
      split
      · rfl
      · exact writeLoop_acceptAll env FATAL text (callSite env) g hg s.l.outputs s hacc
    rw [hret hw]
  · intro v h
    rw [Fatal_eq]
    rcases hw : Logger.write env s FATAL text (callSite env) with ⟨s1, o⟩
    rw [hw] at h
    simp only at h
    subst h
    rfl

/-- C6, witness: with two buffers `Fatal` writes the line to both and the process
exits with status 1; so it does, writing nothing, with a threshold above
`Fatal`. -/
theorem Fatal_outcome_witness :
    (Logger.Fatal exampleEnv exampleState "dying").2 = .exited 1 ∧
    ((Logger.Fatal exampleEnv exampleState "dying").1.writers.map Writer.data) =
      ["02.01.2024 10:15:30.123 FATAL [main.run.42 goid-7] dying\n",
       "02.01.2024 10:15:30.124 FATAL [main.run.42 goid-7] dying\n", ""] ∧
    Logger.Fatal exampleEnv (Logger.SetLevel exampleState 6) "dying" =
      (Logger.SetLevel exampleState 6, .exited 1) :=
  ⟨(Fatal_outcome exampleEnv exampleState "dying").2.2.2.1 7 (by decide)
      (exampleState_accepts Trace),
   by decide,
   (Fatal_outcome exampleEnv (Logger.SetLevel exampleState 6) "dying").2.2.1 (by decide)⟩

/-- C6, counterexample: with a sink that rejects the write, `Fatal` does not end
in a process exit: it ends in the panic of `write`, after the first sink has
received the line. -/
theorem Fatal_counterexample :
    (Logger.Fatal exampleEnv failingState "dying").2 = .panicked (.writeError "broken pipe") ∧
    (Logger.Fatal exampleEnv failingState "dying").2 ≠ .exited 1 ∧
    ((Logger.Fatal exampleEnv failingState "dying").1.writers.map Writer.data) =
      ["02.01.2024 10:15:30.123 FATAL [main.run.42 goid-7] dying\n", "", ""] := by
  refine ⟨by decide, by decide, by decide⟩

/-- C7: `NewLogger` gives a logger whose threshold is `Trace`, which is 0, so
that no level of the table is below it; whose time format is the default pattern
`02.01.2006 15:04:05.000`; and whose sink list is empty, its one-time guard not
yet used. -/
theorem NewLogger_defaults (writers : List Writer) (ticks : Nat) :
    (NewLogger writers ticks).l.logLevel = Trace ∧ Trace = 0 ∧
    (∀ p ∈ m, ¬ (NewLogger writers ticks).l.logLevel > mapIndex m p.1) ∧
    (NewLogger writers ticks).l.timeFormat = "02.01.2006 15:04:05.000" ∧
    (NewLogger writers ticks).l.outputs = [] ∧
    (NewLogger writers ticks).l.once = false ∧
    (NewLogger writers ticks).writers = writers := by
  refine ⟨rfl, rfl, ?_, rfl, rfl, rfl, rfl⟩
  intro p hp
  rw [mapIndex_m p hp]
  show ¬ Trace > p.2
  simp only [m, List.mem_cons, List.mem_singleton, List.not_mem_nil, or_false] at hp
  rcases hp with rfl | rfl | rfl | rfl | rfl | rfl <;> decide

/-- C8: `SetTimeFormat` changes the time format and nothing else (threshold,
sink list, one-time guard, the writers and what they hold are as before), and
the next line carries the current time rendered with the new format; `SetLevel`
changes the threshold and nothing else. -/
theorem setters_frame (env : Env) (s : State) (F : String) (T : Int) :
    ((Logger.SetTimeFormat s F).l.timeFormat = F ∧
     (Logger.SetTimeFormat s F).l.logLevel = s.l.logLevel ∧
     (Logger.SetTimeFormat s F).l.outputs = s.l.outputs ∧
     (Logger.SetTimeFormat s F).l.once = s.l.once ∧
     (Logger.SetTimeFormat s F).writers = s.writers ∧
     (Logger.SetTimeFormat s F).ticks = s.ticks) ∧
    (Logger.getTimeNow env (Logger.SetTimeFormat s F)).2 = env.format (env.clock s.ticks) F ∧
    (∀ (g : Int) (lv text : String) (fr : Frame), goid env.dump = .returned g →
      (Logger.getLog env (Logger.SetTimeFormat s F) lv text fr).2 =
        .returned (env.format (env.clock s.ticks) F ++ " " ++ lv ++ " [" ++ fr.Function ++ "." ++
          fmtInt fr.Line ++ " goid-" ++ fmtInt g ++ "] " ++ text ++ "\n")) ∧
    ((Logger.SetLevel s T).l.logLevel = T ∧
     (Logger.SetLevel s T).l.timeFormat = s.l.timeFormat ∧
     (Logger.SetLevel s T).l.outputs = s.l.outputs ∧
     (Logger.SetLevel s T).l.once = s.l.once ∧
     (Logger.SetLevel s T).writers = s.writers ∧
     (Logger.SetLevel s T).ticks = s.ticks) := by
  refine ⟨⟨rfl, rfl, rfl, rfl, rfl, rfl⟩, rfl, ?_, ⟨rfl, rfl, rfl, rfl, rfl, rfl⟩⟩
  intro g lv text fr hg
  rw [getLog_ok env _ lv text fr g hg]
  rfl

/-- C8, witness: after `SetTimeFormat("15:04:05")` the next line starts with the
time in that layout, and what the writers hold is as before. -/
theorem setters_frame_witness :
    (Logger.getLog exampleEnv (Logger.SetTimeFormat exampleState "15:04:05") WARN "disk low"
        ⟨"main.run", "/app/main.go", 42⟩).2 =
      .returned "10:15:30 WARN [main.run.42 goid-7] disk low\n" ∧
    ((Logger.SetTimeFormat exampleState "15:04:05").writers.map (fun w => w.data)) =
      (exampleState.writers.map (fun w => w.data)) :=
  ⟨((setters_frame exampleEnv exampleState "15:04:05" Warn).2.2.1 7 WARN "disk low"
      ⟨"main.run", "/app/main.go", 42⟩ (by decide)).trans (by decide),
   congrArg (List.map (fun w => w.data))
     (setters_frame exampleEnv exampleState "15:04:05" Warn).1.2.2.2.2.1⟩

/-- C9, as amended: with the captured stack as a list of frames (index 0 the
stack-capture routine, index 1 `getFrame`) and `skipFrames` an `int` that is not
negative.  When `skipFrames + 4 ≤ 2^45`, the length of a buffer `make` accepts,
`getFrame(skipFrames)` returns the frame at index `skipFrames+2` if the stack has at
least `skipFrames+3` frames, and the sentinel frame named `unknown`, with line 0, if
the stack is shorter, an empty stack included.  When `skipFrames + 4 > 2^45` it
panics in `make` and returns no frame.  Called with 1 from a level method it
returns the frame of the caller of that method. -/
theorem getFrame_target (stack : List Frame) (skipFrames : Int) (h : 0 ≤ skipFrames)
    (hint : skipFrames < 2 ^ 63) :
    (skipFrames + 4 ≤ 2 ^ 45 →
      (skipFrames + 3 ≤ stack.length →
        ∃ f, stack[(skipFrames + 2).toNat]? = some f ∧
          getFrame stack skipFrames = .returned f) ∧
      (stack.length < skipFrames + 3 →
        getFrame stack skipFrames = .returned ⟨"unknown", "", 0⟩) ∧
      (stack = [] → getFrame stack skipFrames = .returned ⟨"unknown", "", 0⟩)) ∧
    (2 ^ 45 < skipFrames + 4 → getFrame stack skipFrames = .panicked .makeLen) ∧
    (∀ (method : String) (line : Int) (caller : Frame) (outer : List Frame),
      getFrame (internalFrames method line ++ caller :: outer) 1 = .returned caller) := by
  have h45 : (2 : Int) ^ 45 = 35184372088832 := by norm_num
  have h63 : (2 : Int) ^ 63 = 9223372036854775808 := by norm_num
  rw [h45]
  rw [h63] at hint
  refine ⟨?_, ?_, ?_⟩
  · intro hb
    obtain ⟨k, rfl⟩ := Int.eq_ofNat_of_zero_le h
    have hkb : k + 4 ≤ 35184372088832 := by omega
    have hk : ((k : Int) + 2).toNat = k + 2 := by omega
    have hshort : (stack.length : Int) < (k : Int) + 3 →
        getFrame stack (k : Int) = .returned ⟨"unknown", "", 0⟩ := by
      intro hlen
      rw [getFrame_nat stack k hkb, List.getElem?_eq_none (by omega)]
      rfl
    refine ⟨?_, hshort, ?_⟩
    · intro hlen
      have hlt : k + 2 < stack.length := by omega
      refine ⟨stack[k + 2], ?_, ?_⟩
      · rw [hk]; exact List.getElem?_eq_getElem hlt
      · rw [getFrame_nat stack k hkb, List.getElem?_eq_getElem hlt]; rfl
    · intro hnil
      apply hshort
      rw [hnil]
      simp only [List.length_nil, Nat.cast_zero]
      omega
  · intro hb
    exact getFrame_large stack skipFrames hb hint
  · intro method line caller outer
    have := getFrame_nat (internalFrames method line ++ caller :: outer) 1 (by norm_num)
    simpa [internalFrames] using this

/-- C9, witness: from `Info` called by `main.run`, `getFrame(1)` is the frame of
`main.run`; with no caller on the stack it is the sentinel; with `skipFrames = 2^60`
it panics. -/
theorem getFrame_target_witness :
    (0 : Int) ≤ 1 ∧ ((1 : Int) + 3 ≤ exampleStack.length) ∧
    (∃ f, exampleStack[((1 : Int) + 2).toNat]? = some f ∧
      getFrame exampleStack 1 = .returned f) ∧
    getFrame exampleStack 1 = .returned ⟨"main.run", "/app/main.go", 42⟩ ∧
    getFrame (internalFrames "Info" 84) 1 = .returned ⟨"unknown", "", 0⟩ ∧
    getFrame exampleStack 1152921504606846976 = .panicked .makeLen :=
  ⟨by decide, by decide,
   ((getFrame_target exampleStack 1 (by decide) (by norm_num)).1 (by norm_num)).1 (by decide),
   (getFrame_target exampleStack 1 (by decide) (by norm_num)).2.2 "Info" 84
     ⟨"main.run", "/app/main.go", 42⟩ [⟨"main.main", "/app/main.go", 10⟩],
   ((getFrame_target (internalFrames "Info" 84) 1 (by decide) (by norm_num)).1
     (by norm_num)).2.1 (by decide),
   (getFrame_target exampleStack 1152921504606846976 (by decide) (by norm_num)).2.1
     (by norm_num)⟩

/-- C9, counterexample: `skipFrames` is the largest `int`, `2^63 - 1`, and no frame
is available.  The sum `skipFrames + 2` wraps to a negative number, `make` panics,
and `getFrame` does not return the sentinel frame; with `skipFrames = 2^60` and the
five frames of the example, a stack too short for index `2^60 + 2`, it panics as
well. -/
theorem getFrame_counterexample :
    getFrame [] 9223372036854775807 = .panicked .makeLen ∧
    getFrame [] 9223372036854775807 ≠ .returned ⟨"unknown", "", 0⟩ ∧
    getFrame exampleStack 1152921504606846976 = .panicked .makeLen ∧
    getFrame exampleStack 1152921504606846976 ≠ .returned ⟨"unknown", "", 0⟩ := by
  refine ⟨by decide, by decide, by decide, by decide⟩

/-- C10, as amended: on a text that begins with the header `goroutine N [running]:`
the parsing step of `goid` returns `N` when `N < 2^63` (so does `goid` itself, which
reads the first 64 bytes), and panics with the range error of `strconv.Atoi`
when `N ≥ 2^63`; on a text whose first field, a leading `goroutine ` removed, is
missing it panics with an index out of range, and on one whose first field is
not a decimal integer it panics with the error of `strconv.Atoi`: in neither case
does it return an identifier. -/
theorem goidParse_header_or_panic (d : String) :
    (∀ (n : Nat) (rest : String), n < 2 ^ 63 →
      d = "goroutine " ++ Nat.repr n ++ " [running]:" ++ rest →
      goidParse d = .returned (n : Int) ∧ goid d = .returned (n : Int)) ∧
    (∀ (n : Nat) (rest : String), 2 ^ 63 ≤ n →
      d = "goroutine " ++ Nat.repr n ++ " [running]:" ++ rest →
      goidParse d = .panicked (.goidError ⟨"Atoi", Nat.repr n, .outOfRange⟩)) ∧
    (firstField d = none → goidParse d = .panicked .indexOutOfRange) ∧
    (∀ f : List Char, firstField d = some f → isDecimalInteger f = false →
      ∃ kind, goidParse d = .panicked (.goidError ⟨"Atoi", String.mk f, kind⟩)) := by
  refine ⟨?_, ?_, ?_, ?_⟩
  · intro n rest hn hd
    subst hd
    exact ⟨by rw [goidParse_header, if_pos hn], goid_header n rest hn⟩
  · intro n rest hn hd
    subst hd
    rw [goidParse_header, if_neg (by omega)]
  · intro hf
    unfold firstField at hf
    unfold goidParse
    cases hF : Fields (TrimPrefix d.data "goroutine ".data) with
    | nil => rfl
    | cons a b => rw [hF] at hf; simp at hf
  · intro f hf hdec
    unfold firstField at hf
    unfold goidParse
    cases hF : Fields (TrimPrefix d.data "goroutine ".data) with
    | nil => rw [hF] at hf; simp at hf
    | cons a b =>
      rw [hF] at hf
      simp only [List.head?_cons, Option.some.injEq] at hf
      subst hf
      obtain ⟨kind, hk⟩ := Atoi_not_decimal a hdec
      exact ⟨kind, by simp only [hk]⟩

/-- C10, witness: the header of goroutine 7 gives 7; a text with no field and a
text whose field is `0x1f` give a panic. -/
theorem goidParse_header_or_panic_witness :
    goidParse "goroutine 7 [running]:\nmain.run()" = .returned 7 ∧
    goid "goroutine 7 [running]:\nmain.run()" = .returned 7 ∧
    goidParse "goroutine " = .panicked .indexOutOfRange ∧
    (∃ kind, goidParse "goroutine 0x1f [running]:" =
      .panicked (.goidError ⟨"Atoi", "0x1f", kind⟩)) :=
  ⟨((goidParse_header_or_panic "goroutine 7 [running]:\nmain.run()").1 7 "\nmain.run()"
      (by decide) (by decide)).1,
   ((goidParse_header_or_panic "goroutine 7 [running]:\nmain.run()").1 7 "\nmain.run()"
      (by decide) (by decide)).2,
   (goidParse_header_or_panic "goroutine ").2.2.1 (by decide),
   (goidParse_header_or_panic "goroutine 0x1f [running]:").2.2.2 "0x1f".data (by decide)
     (by decide)⟩

/-- C10, counterexample: the header `goroutine 9223372036854775808 [running]:`
names the natural number `2^63`, and the parsing step of `goid` does not return it:
it panics with the range error of `strconv.Atoi`. -/
theorem goidParse_header_counterexample :
    "goroutine 9223372036854775808 [running]:" =
        "goroutine " ++ Nat.repr (2 ^ 63) ++ " [running]:" ∧
    goidParse "goroutine 9223372036854775808 [running]:" =
      .panicked (.goidError ⟨"Atoi", "9223372036854775808", .outOfRange⟩) ∧
    goidParse "goroutine 9223372036854775808 [running]:" ≠ .returned ((2 ^ 63 : Nat) : Int) := by
  refine ⟨by decide, by decide, by decide⟩

end logger
